import Mathlib

/-!
Shallow embedding of the telegram-bot-python repository core:
the SQLite-backed store (`src/database.py`), the tweet fan-out webhook
(`src/webhook.py`) and the group reconciliation loop (`src/monitor.py`).

Modelling conventions:
* SQLite tables are lists of row structures; `INTEGER PRIMARY KEY`
  auto-increment ids are carried as explicit `next…Id` counters.
* `datetime.now().isoformat()` timestamps are abstracted to `Nat`
  values passed in explicitly (`now`); SQLite compares the ISO strings
  lexicographically, which is order-isomorphic to the Nat abstraction.
* Nullable TEXT columns are `Option String`; Python truthiness of such
  a value (`if not x`) is `pyBlank` (falsy on both `None` and `""`).
* External capabilities (Telegram sends, invite-link provisioning, the
  md5 digest) are oracle function parameters.
* A Python `sqlite3` connection only commits at an explicit
  `conn.commit()`; an exception before that point closes the connection
  with the open transaction rolled back, so a failing operation leaves
  the state unchanged.
-/

/-- Row of the `users` table (`SQL_CREATE_USERS_TABLE`, database.py). -/
structure UserRow where
  id : Nat
  chat_id : String
  name : String
  email : String
  intention : String
  created_at : Nat
  updated_at : Nat
  group_id : Option String
  group_name : Option String
  invite_link : Option String
deriving Repr, DecidableEq

/-- Row of the `keywords` table (`SQL_CREATE_KEYWORDS_TABLE`, database.py).
The table declares `UNIQUE(user_id, keyword)` and
`FOREIGN KEY (user_id) REFERENCES users (id) ON DELETE CASCADE`. -/
structure KeywordRow where
  id : Nat
  user_id : Nat
  keyword : String
  created_at : Nat
deriving Repr, DecidableEq

/-- Row of the `groups` table (`SQL_CREATE_GROUPS_TABLE`, database.py). -/
structure GroupRow where
  id : Nat
  group_id : String
  group_name : Option String
  invite_link : Option String
  created_at : Nat
  updated_at : Nat
deriving Repr, DecidableEq

/-- Row of the `tweets` table (`SQL_CREATE_TWEETS_TABLE`, database.py):
the processed-post ledger, with `tweet_id TEXT UNIQUE`. -/
structure TweetRow where
  id : Nat
  tweet_id : String
  tweet_text : String
  tweet_link : String
  processed_at : Nat
deriving Repr, DecidableEq

/-- The persistent store: the four domain relations of database.py plus
the auto-increment counters (the `admins` relation is out of scope). -/
structure DBState where
  users : List UserRow
  keywords : List KeywordRow
  groups : List GroupRow
  tweets : List TweetRow
  nextUserId : Nat
  nextKeywordId : Nat
  nextGroupId : Nat
  nextTweetId : Nat
deriving Repr, DecidableEq

/-- The empty store produced by `init_db`. -/
def DBState.empty : DBState :=
  ⟨[], [], [], [], 1, 1, 1, 1⟩

/-- Python truthiness test `not x` for a nullable TEXT value:
falsy when NULL (`none`) or the empty string. -/
def pyBlank : Option String → Bool
  | none => true
  | some s => s = ""

/-- Python substring containment `needle in hay` on strings
(the empty needle is contained in everything). -/
def strContains (hay needle : String) : Bool :=
  decide (needle.toList <:+: hay.toList)

/-- Python `str.lower()` (per-character lowering). -/
def pyLower (s : String) : String :=
  ⟨s.data.map Char.toLower⟩

/-- Python `str.strip()`: drop leading and trailing whitespace. -/
def pyStrip (s : String) : String :=
  ⟨(((s.data.dropWhile Char.isWhitespace).reverse).dropWhile Char.isWhitespace).reverse⟩

/-- Python `s.split(",")` on the character list: split at every comma,
keeping empty pieces. -/
def splitCommaChars : List Char → List (List Char)
  | [] => [[]]
  | c :: cs =>
    if c = ',' then
      [] :: splitCommaChars cs
    else
      match splitCommaChars cs with
      | [] => [[c]]
      | p :: ps => (c :: p) :: ps

/-- Python `keywords.split(",")`. -/
def pySplitComma (s : String) : List String :=
  (splitCommaChars s.data).map (fun l => ⟨l⟩)

/-- database.py `add_user` keyword tokenization:
`[k.strip() for k in keywords.split(",") if k.strip()]`. -/
def splitKeywords (keywords : String) : List String :=
  ((pySplitComma keywords).map pyStrip).filter (fun k => k ≠ "")

/-- The keyword INSERT loop of `Database.add_user`: one
`INSERT INTO keywords` per token, storing `keyword.lower()`.  The
`UNIQUE(user_id, keyword)` constraint turns an insert of an
already-stored (user_id, lowered keyword) pair into an
`sqlite3.IntegrityError`, modelled as `none`. -/
def insertKeywordRows (uid now : Nat) :
    List String → List KeywordRow → Nat → Option (List KeywordRow × Nat)
  | [], rows, nextId => some (rows, nextId)
  | k :: ks, rows, nextId =>
    if rows.any (fun r => r.user_id = uid && r.keyword = pyLower k) then
      none
    else
      insertKeywordRows uid now ks (rows ++ [⟨nextId, uid, pyLower k, now⟩]) (nextId + 1)

/-- `Database.add_user(chat_id, name, email, intention, keywords)`.
Inserts the user row, then each keyword token lowercased.  Any
`sqlite3.IntegrityError` (duplicate `chat_id`, or a repeated lowered
keyword violating `UNIQUE(user_id, keyword)`) is caught, `None` is
returned, and — since `conn.commit()` was never reached — the whole
transaction is rolled back, leaving the store unchanged. -/
def add_user (s : DBState) (now : Nat)
    (chat_id name email intention keywords : String) : Option Nat × DBState :=
  if s.users.any (fun u => u.chat_id = chat_id) then
    (none, s)
  else
    let uid := s.nextUserId
    let userRow : UserRow :=
      ⟨uid, chat_id, name, email, intention, now, now, none, none, none⟩
    match insertKeywordRows uid now (splitKeywords keywords) s.keywords s.nextKeywordId with
    | none => (none, s)
    | some (krows, nk) =>
      (some uid,
        { s with
          users := s.users ++ [userRow]
          keywords := krows
          nextUserId := uid + 1
          nextKeywordId := nk })

/-- `SELECT keyword FROM keywords WHERE user_id = ?`. -/
def userKeywords (s : DBState) (uid : Nat) : List String :=
  (s.keywords.filter (fun k => k.user_id = uid)).map (fun k => k.keyword)

/-- `Database.get_user_by_chat_id`. -/
def get_user_by_chat_id (s : DBState) (chat_id : String) : Option UserRow :=
  s.users.find? (fun u => u.chat_id = chat_id)

/-- `Database.remove_user(chat_id)`: looks the user up, then runs
`DELETE FROM users WHERE chat_id = ?` and returns whether a row existed.
The connection never executes `PRAGMA foreign_keys = ON`, and SQLite
leaves foreign-key enforcement off by default, so the declared
`ON DELETE CASCADE` on `keywords` is inert: keyword rows of the deleted
user stay in the table. -/
def remove_user (s : DBState) (chat_id : String) : Bool × DBState :=
  if s.users.any (fun u => u.chat_id = chat_id) then
    (true, { s with users := s.users.filter (fun u => u.chat_id ≠ chat_id) })
  else
    (false, s)

/-- `Database.update_user_group(chat_id, group_id, group_name, invite_link)`:
`UPDATE users SET group_id, group_name, invite_link, updated_at WHERE chat_id`;
returns `cursor.rowcount > 0`. -/
def update_user_group (s : DBState) (now : Nat)
    (chat_id group_id group_name invite_link : String) : Bool × DBState :=
  (s.users.any (fun u => u.chat_id = chat_id),
    { s with
      users := s.users.map (fun u =>
        if u.chat_id = chat_id then
          { u with
            group_id := some group_id
            group_name := some group_name
            invite_link := some invite_link
            updated_at := now }
        else u) })

/-- `Database.add_group(group_id, group_name=None, invite_link=None)`:
duplicate `group_id` hits the UNIQUE constraint and yields `None`. -/
def add_group (s : DBState) (now : Nat) (group_id : String)
    (group_name invite_link : Option String) : Option Nat × DBState :=
  if s.groups.any (fun g => g.group_id = group_id) then
    (none, s)
  else
    (some s.nextGroupId,
      { s with
        groups := s.groups ++ [⟨s.nextGroupId, group_id, group_name, invite_link, now, now⟩]
        nextGroupId := s.nextGroupId + 1 })

/-- `Database.update_group(group_id, group_name, invite_link)`:
`UPDATE groups SET group_name, invite_link, updated_at WHERE group_id`;
returns `cursor.rowcount > 0`. -/
def update_group (s : DBState) (now : Nat) (group_id : String)
    (group_name invite_link : Option String) : Bool × DBState :=
  (s.groups.any (fun g => g.group_id = group_id),
    { s with
      groups := s.groups.map (fun g =>
        if g.group_id = group_id then
          { g with group_name := group_name, invite_link := invite_link, updated_at := now }
        else g) })

/-- `Database.get_incomplete_groups`:
`WHERE group_name IS NULL OR group_name = '' OR invite_link IS NULL OR invite_link = ''`. -/
def get_incomplete_groups (s : DBState) : List GroupRow :=
  s.groups.filter (fun g => pyBlank g.group_name || pyBlank g.invite_link)

/-- `Database.get_user_without_group`:
`WHERE group_id IS NULL OR group_id = '' ORDER BY created_at ASC LIMIT 1`. -/
def get_user_without_group (s : DBState) : Option UserRow :=
  match s.users.filter (fun u => pyBlank u.group_id) with
  | [] => none
  | u :: us =>
    some (us.foldl (fun best v => if v.created_at < best.created_at then v else best) u)

/-- `Database.add_tweet(tweet_id, tweet_text, tweet_link)`: the
processed-post ledger insert.  A duplicate `tweet_id` violates the
UNIQUE constraint; the `IntegrityError` is caught and `False` returned
with no change ("tweet already processed"). -/
def add_tweet (s : DBState) (now : Nat)
    (tweet_id tweet_text tweet_link : String) : Bool × DBState :=
  if s.tweets.any (fun t => t.tweet_id = tweet_id) then
    (false, s)
  else
    (true,
      { s with
        tweets := s.tweets ++ [⟨s.nextTweetId, tweet_id, tweet_text, tweet_link, now⟩]
        nextTweetId := s.nextTweetId + 1 })

/-- `Database.is_tweet_processed(tweet_id)`. -/
def is_tweet_processed (s : DBState) (tweet_id : String) : Bool :=
  s.tweets.any (fun t => t.tweet_id = tweet_id)

/-- `Database.find_users_by_keywords(tweet_text)`: lowercase the text,
take the distinct stored keywords, keep those contained in the lowered
text (`kw in tweet_text_lower`), short-circuit to `[]` when none match,
else `SELECT DISTINCT u.* FROM users u JOIN keywords k ON u.id = k.user_id
WHERE k.keyword IN (matching) AND u.group_id IS NOT NULL AND u.group_id != ''`. -/
def find_users_by_keywords (s : DBState) (tweet_text : String) : List UserRow :=
  let lower := pyLower tweet_text
  let matching := ((s.keywords.map (fun k => k.keyword)).dedup).filter
    (fun kw => strContains lower kw)
  if matching.isEmpty then
    []
  else
    s.users.filter (fun u =>
      (s.keywords.any (fun k => k.user_id = u.id && matching.any (fun m => m = k.keyword)))
        && !(pyBlank u.group_id))

/-! ### webhook.py — tweet fan-out -/

/-- HTTP response of `process_tweet_notification` (webhook.py):
400 on missing fields, 200 "Tweet already processed" on a duplicate,
200 with `{delivery_count, matching_users, unique_groups}` otherwise. -/
inductive TweetResponse where
  | missingFields
  | alreadyProcessed
  | processed (delivery_count matching_users unique_groups : Nat)
deriving Repr, DecidableEq

/-- Accumulator of the fan-out loop: the delivery counter, the
`processed_groups` set (kept as a duplicate-free list) and the ordered
trace of `send_tweet_to_group` attempts `(group_id, succeeded)`. -/
structure FanOutResult where
  delivery_count : Nat
  processed_groups : List String
  attempts : List (String × Bool)
deriving Repr, DecidableEq

/-- The `for user in users` loop of `process_tweet_notification`
(webhook.py lines 83–95).  `send n gid` is the outcome of the n-th
`send_tweet_to_group` call of this request (external transport oracle).
A user is skipped when its `group_id` is falsy or already in
`processed_groups`; on a successful send the counter is bumped and the
group is added to the set. -/
def fanOutLoop (send : Nat → String → Bool) :
    List UserRow → Nat → List String → List (String × Bool) → FanOutResult
  | [], dc, pg, tr => ⟨dc, pg, tr⟩
  | u :: us, dc, pg, tr =>
    match u.group_id with
    | none => fanOutLoop send us dc pg tr
    | some gid =>
      if gid = "" || pg.any (fun x => x = gid) then
        fanOutLoop send us dc pg tr
      else if send tr.length gid then
        fanOutLoop send us (dc + 1) (pg ++ [gid]) (tr ++ [(gid, true)])
      else
        fanOutLoop send us dc pg (tr ++ [(gid, false)])

/-- The tweet identifier used by `process_tweet_notification`:
the form `id` when present and truthy, else
`hashlib.md5(f"{link}:{text}")` — the digest is the oracle `md5`. -/
def resolveTweetId (md5 : String → String → String)
    (link text : String) (idOpt : Option String) : String :=
  match idOpt with
  | none => md5 link text
  | some i => if i = "" then md5 link text else i

/-- `process_tweet_notification` (webhook.py): validate `link`/`text`,
resolve the tweet id, return early when the ledger already holds it,
otherwise match users, fan out with per-group deduplication, record the
tweet unconditionally, and answer with the telemetry.  The returned
triple is (HTTP response, new store, trace of send attempts). -/
def process_tweet_notification (send : Nat → String → Bool)
    (md5 : String → String → String) (s : DBState) (now : Nat)
    (link text idOpt : Option String) :
    TweetResponse × DBState × List (String × Bool) :=
  if pyBlank link || pyBlank text then
    (.missingFields, s, [])
  else
    let lk := link.getD ""
    let tx := text.getD ""
    let tid := resolveTweetId md5 lk tx idOpt
    if is_tweet_processed s tid then
      (.alreadyProcessed, s, [])
    else
      let users := find_users_by_keywords s tx
      let r := fanOutLoop send users 0 [] []
      let s2 := (add_tweet s now tid tx lk).2
      (.processed r.delivery_count users.length r.processed_groups.length,
        s2, r.attempts)

/-! ### monitor.py — group reconciliation -/

/-- Observable actions of one reconciliation cycle. -/
inductive MonitorEvent where
  | groupCompleted (group_id : String)
  | userBound (chat_id group_id : String)
  | inviteAttempt (chat_id : String)
deriving Repr, DecidableEq

/-- The group display name derived in `_process_groups` (monitor.py
line 92–93): `', '.join(user['keywords'][:3]) if user['keywords'] else
'Geral'` inside `f"Grupo de {user['name']} - {keywords}"`. -/
def deriveGroupName (name : String) (kws : List String) : String :=
  let kwStr := if kws.isEmpty then "Geral" else String.intercalate ", " (kws.take 3)
  "Grupo de " ++ name ++ " - " ++ kwStr

/-- The `for group in incomplete_groups` loop of
`GroupMonitor._process_groups` (monitor.py lines 70–113).
`invGen` is the `generate_invite_link` oracle (`none`/empty on
failure), `sendInv` the `send_invite` oracle.  A group with both name
and link truthy is skipped; when no unassigned user exists the whole
cycle `break`s; a failed invite generation or group update skips only
this group. -/
def processGroupsLoop (invGen : String → Option String) (sendInv : String → Bool)
    (now : Nat) :
    List GroupRow → DBState → List MonitorEvent → DBState × List MonitorEvent
  | [], s, ev => (s, ev)
  | g :: gs, s, ev =>
    if !(pyBlank g.group_name) && !(pyBlank g.invite_link) then
      processGroupsLoop invGen sendInv now gs s ev
    else
      match get_user_without_group s with
      | none => (s, ev)
      | some user =>
        let linkOpt := invGen g.group_id
        if pyBlank linkOpt then
          processGroupsLoop invGen sendInv now gs s ev
        else
          let link := linkOpt.getD ""
          let gname := deriveGroupName user.name (userKeywords s user.id)
          let upd := update_group s now g.group_id (some gname) (some link)
          if upd.1 then
            let bind := update_user_group upd.2 now user.chat_id g.group_id gname link
            if bind.1 then
              let _ := sendInv user.chat_id
              processGroupsLoop invGen sendInv now gs bind.2
                (ev ++ [.groupCompleted g.group_id,
                        .userBound user.chat_id g.group_id,
                        .inviteAttempt user.chat_id])
            else
              processGroupsLoop invGen sendInv now gs bind.2
                (ev ++ [.groupCompleted g.group_id])
          else
            processGroupsLoop invGen sendInv now gs upd.2 ev

/-- `GroupMonitor._process_groups` (monitor.py): fetch the incomplete
groups and run the completion loop over them (a no-op when there are
none). -/
def process_groups (invGen : String → Option String) (sendInv : String → Bool)
    (now : Nat) (s : DBState) : DBState × List MonitorEvent :=
  let incomplete := get_incomplete_groups s
  if incomplete.isEmpty then
    (s, [])
  else
    processGroupsLoop invGen sendInv now incomplete s []

/-! ### Helper lemmas -/

/-- Number of successful send attempts to a given group in a trace. -/
def succCount (tr : List (String × Bool)) (gid : String) : Nat :=
  (tr.filter (fun a => a.1 = gid && a.2)).length

lemma fanOutLoop_succCount (send : Nat → String → Bool) (gid : String) :
    ∀ (us : List UserRow) (dc : Nat) (pg : List String) (tr : List (String × Bool)),
      succCount tr gid = (if pg.any (fun x => x = gid) then 1 else 0) →
      succCount (fanOutLoop send us dc pg tr).attempts gid
        = if (fanOutLoop send us dc pg tr).processed_groups.any (fun x => x = gid) then 1
          else 0
  | [], dc, pg, tr, h => h
  | u :: us, dc, pg, tr, h => by
    unfold fanOutLoop
    match hg : u.group_id with
    | none => exact fanOutLoop_succCount send gid us dc pg tr h
    | some gid' =>
      by_cases hskip : gid' = "" || pg.any (fun x => x = gid')
      · simp only [hskip, if_true]
        exact fanOutLoop_succCount send gid us dc pg tr h
      · simp only [hskip, if_false]
        by_cases hsend : send tr.length gid'
        · simp only [hsend, if_true]
          refine fanOutLoop_succCount send gid us (dc + 1) (pg ++ [gid']) (tr ++ [(gid', true)]) ?_
          by_cases he : gid' = gid
          · subst he
            have hpg : pg.any (fun x => x = gid') = false := by
              cases hpgb : pg.any (fun x => x = gid') with
              | false => rfl
              | true => exact absurd (by simp [hpgb]) hskip
            have hL : succCount (tr ++ [(gid', true)]) gid' = succCount tr gid' + 1 := by
              simp [succCount, List.filter_append]
            have hR : (pg ++ [gid']).any (fun x => x = gid') = true := by simp
            rw [hL, hR, h, hpg]
            simp
          · have hL : succCount (tr ++ [(gid', true)]) gid = succCount tr gid := by
              simp [succCount, List.filter_append, he]
            have hR : (pg ++ [gid']).any (fun x => x = gid)
                = pg.any (fun x => x = gid) := by simp [he]
            rw [hL, hR]
            exact h
        · simp only [hsend, if_false]
          refine fanOutLoop_succCount send gid us dc pg (tr ++ [(gid', false)]) ?_
          have hL : succCount (tr ++ [(gid', false)]) gid = succCount tr gid := by
            simp [succCount, List.filter_append]
          rw [hL]
          exact h

lemma fanOutLoop_counts (send : Nat → String → Bool) :
    ∀ (us : List UserRow) (dc : Nat) (pg : List String) (tr : List (String × Bool)),
      dc = pg.length →
      pg.length = (tr.filter (fun a => a.2)).length →
      (fanOutLoop send us dc pg tr).delivery_count
          = (fanOutLoop send us dc pg tr).processed_groups.length
        ∧ (fanOutLoop send us dc pg tr).processed_groups.length
          = ((fanOutLoop send us dc pg tr).attempts.filter (fun a => a.2)).length
  | [], dc, pg, tr, h1, h2 => ⟨h1, h2⟩
  | u :: us, dc, pg, tr, h1, h2 => by
    unfold fanOutLoop
    match hg : u.group_id with
    | none => exact fanOutLoop_counts send us dc pg tr h1 h2
    | some gid' =>
      by_cases hskip : gid' = "" || pg.any (fun x => x = gid')
      · simp only [hskip, if_true]
        exact fanOutLoop_counts send us dc pg tr h1 h2
      · simp only [hskip, if_false]
        by_cases hsend : send tr.length gid'
        · simp only [hsend, if_true]
          refine fanOutLoop_counts send us (dc + 1) (pg ++ [gid']) (tr ++ [(gid', true)]) ?_ ?_
          · simp [h1]
          · simp [List.filter_append, h2]
        · simp only [hsend, if_false]
          refine fanOutLoop_counts send us dc pg (tr ++ [(gid', false)]) h1 ?_
          simp [List.filter_append, h2]

lemma is_tweet_processed_add_tweet (s : DBState) (now : Nat) (tid tx lk : String) :
    is_tweet_processed (add_tweet s now tid tx lk).2 tid = true := by
  by_cases h : s.tweets.any (fun t => t.tweet_id = tid)
  · simp [add_tweet, is_tweet_processed, h]
  · simp [add_tweet, is_tweet_processed, h, List.any_append]

lemma add_tweet_filter_count (s : DBState) (now : Nat) (tid tx lk : String)
    (h : is_tweet_processed s tid = false) :
    (((add_tweet s now tid tx lk).2.tweets.filter (fun t => t.tweet_id = tid)).length) = 1 := by
  have h' : s.tweets.any (fun t => t.tweet_id = tid) = false := h
  have h0 : s.tweets.filter (fun t => t.tweet_id = tid) = [] := by
    simp only [List.any_eq_false] at h'
    simp only [List.filter_eq_nil_iff]
    exact h'
  simp [add_tweet, h', List.filter_append, h0]

/-- C2: within one processing call of `process_tweet_notification`, no
destination group receives more than one successful delivery of the
post, whatever the transport outcomes and however many matched
subscribers share the group. -/
theorem C2_at_most_one_delivery_per_group
    (send : Nat → String → Bool) (md5 : String → String → String)
    (s : DBState) (now : Nat) (link text idOpt : Option String) (gid : String) :
    succCount (process_tweet_notification send md5 s now link text idOpt).2.2 gid ≤ 1 := by
  have base := fanOutLoop_succCount send gid (find_users_by_keywords s (text.getD "")) 0 [] []
    (by simp [succCount])
  unfold process_tweet_notification
  by_cases h1 : pyBlank link || pyBlank text
  · simp [h1, succCount]
  · by_cases h2 : is_tweet_processed s
        (resolveTweetId md5 (link.getD "") (text.getD "") idOpt)
    · simp [h1, h2, succCount]
    · simp only [h1, h2, Bool.false_eq_true, if_false]
      rw [base]
      split <;> simp

/-- C9: whenever `process_tweet_notification` answers with the 200
telemetry, `delivery_count` equals `unique_groups`, and both equal the
number of successful send attempts of the call — a group is counted
exactly when its delivery succeeded. -/
theorem C9_delivery_count_eq_unique_groups
    (send : Nat → String → Bool) (md5 : String → String → String)
    (s : DBState) (now : Nat) (link text idOpt : Option String)
    (dc mu ug : Nat) (s2 : DBState) (tr : List (String × Bool))
    (h : process_tweet_notification send md5 s now link text idOpt
      = (TweetResponse.processed dc mu ug, s2, tr)) :
    dc = ug ∧ ug = (tr.filter (fun a => a.2)).length := by
  have base := fanOutLoop_counts send (find_users_by_keywords s (text.getD "")) 0 [] []
    rfl rfl
  unfold process_tweet_notification at h
  by_cases h1 : pyBlank link || pyBlank text
  · simp [h1] at h
  · by_cases h2 : is_tweet_processed s
        (resolveTweetId md5 (link.getD "") (text.getD "") idOpt)
    · simp [h1, h2] at h
    · simp only [h1, h2, Bool.false_eq_true, if_false, Prod.mk.injEq,
        TweetResponse.processed.injEq] at h
      obtain ⟨⟨hdc, -, hug⟩, -, htr⟩ := h
      subst hdc
      subst hug
      subst htr
      exact base

lemma process_state_after_new (send : Nat → String → Bool)
    (md5 : String → String → String) (s : DBState) (now : Nat)
    (link text idOpt : Option String)
    (hlk : pyBlank link = false) (htx : pyBlank text = false)
    (hnew : is_tweet_processed s
      (resolveTweetId md5 (link.getD "") (text.getD "") idOpt) = false) :
    (process_tweet_notification send md5 s now link text idOpt).2.1
      = (add_tweet s now (resolveTweetId md5 (link.getD "") (text.getD "") idOpt)
          (text.getD "") (link.getD "")).2 := by
  unfold process_tweet_notification
  simp [hlk, htx, hnew]

/-- C1: once a first call has recorded post identifier `P`, a second
call carrying the same `P` makes zero send attempts, answers with the
distinct already-processed response (not an error), leaves the store
untouched, and the ledger holds exactly one entry for `P`. -/
theorem C1_second_call_is_noop
    (send send2 : Nat → String → Bool) (md5 : String → String → String)
    (s : DBState) (now now2 : Nat) (lk tx lk2 tx2 P : String)
    (hlk : lk ≠ "") (htx : tx ≠ "") (hlk2 : lk2 ≠ "") (htx2 : tx2 ≠ "") (hP : P ≠ "")
    (hnew : is_tweet_processed s P = false) :
    process_tweet_notification send2 md5
        (process_tweet_notification send md5 s now (some lk) (some tx) (some P)).2.1
        now2 (some lk2) (some tx2) (some P)
      = (TweetResponse.alreadyProcessed,
         (process_tweet_notification send md5 s now (some lk) (some tx) (some P)).2.1, [])
    ∧ ((process_tweet_notification send md5 s now
          (some lk) (some tx) (some P)).2.1.tweets.filter
        (fun t => t.tweet_id = P)).length = 1 := by
  have hid : resolveTweetId md5 lk tx (some P) = P := by
    simp [resolveTweetId, hP]
  have hs1 : (process_tweet_notification send md5 s now (some lk) (some tx) (some P)).2.1
      = (add_tweet s now P tx lk).2 := by
    have := process_state_after_new send md5 s now (some lk) (some tx) (some P)
      (by simp [pyBlank, hlk]) (by simp [pyBlank, htx]) (by simpa [hid] using hnew)
    simpa [hid] using this
  have hproc : is_tweet_processed
      (process_tweet_notification send md5 s now (some lk) (some tx) (some P)).2.1 P
      = true := by
    rw [hs1]
    exact is_tweet_processed_add_tweet s now P tx lk
  constructor
  · conv_lhs => rw [process_tweet_notification]
    simp [pyBlank, hlk2, htx2, resolveTweetId, hP, hproc]
  · rw [hs1]
    exact add_tweet_filter_count s now P tx lk hnew

/-- Witness for C1 at a concrete store and post. -/
theorem C1_second_call_is_noop_witness :
    process_tweet_notification (fun _ _ => true) (fun _ _ => "h")
        (process_tweet_notification (fun _ _ => true) (fun _ _ => "h")
          DBState.empty 3 (some "lnk") (some "txt") (some "p1")).2.1
        4 (some "lnk") (some "txt") (some "p1")
      = (TweetResponse.alreadyProcessed,
         (process_tweet_notification (fun _ _ => true) (fun _ _ => "h")
           DBState.empty 3 (some "lnk") (some "txt") (some "p1")).2.1, [])
    ∧ ((process_tweet_notification (fun _ _ => true) (fun _ _ => "h")
          DBState.empty 3 (some "lnk") (some "txt") (some "p1")).2.1.tweets.filter
        (fun t => t.tweet_id = "p1")).length = 1 :=
  C1_second_call_is_noop (fun _ _ => true) (fun _ _ => true) (fun _ _ => "h")
    DBState.empty 3 4 "lnk" "txt" "lnk" "txt" "p1"
    (by decide) (by decide) (by decide) (by decide) (by decide) (by decide)

/-- C6: a non-duplicate, well-formed notification is always recorded in
the processed-post ledger by the end of the call — for every transport
oracle (so also when every delivery fails) and every store (so also
when no subscriber matches) — and the call reports the 200 telemetry
response. -/
theorem C6_recorded_unconditionally
    (send : Nat → String → Bool) (md5 : String → String → String)
    (s : DBState) (now : Nat) (link text idOpt : Option String)
    (hlk : pyBlank link = false) (htx : pyBlank text = false)
    (hnew : is_tweet_processed s
      (resolveTweetId md5 (link.getD "") (text.getD "") idOpt) = false) :
    is_tweet_processed (process_tweet_notification send md5 s now link text idOpt).2.1
        (resolveTweetId md5 (link.getD "") (text.getD "") idOpt) = true
    ∧ ∃ dc mu ug, (process_tweet_notification send md5 s now link text idOpt).1
        = TweetResponse.processed dc mu ug := by
  constructor
  · rw [process_state_after_new send md5 s now link text idOpt hlk htx hnew]
    exact is_tweet_processed_add_tweet s now _ (text.getD "") (link.getD "")
  · have he : (process_tweet_notification send md5 s now link text idOpt).1
        = TweetResponse.processed
            (fanOutLoop send (find_users_by_keywords s (text.getD "")) 0 [] []).delivery_count
            (find_users_by_keywords s (text.getD "")).length
            (fanOutLoop send
              (find_users_by_keywords s (text.getD "")) 0 [] []).processed_groups.length := by
      unfold process_tweet_notification
      simp [hlk, htx, hnew]
    exact ⟨_, _, _, he⟩

/-- Witness for C6: an always-failing transport and a store with no
subscribers — zero matches, zero deliveries, yet the post is recorded. -/
theorem C6_recorded_unconditionally_witness :
    is_tweet_processed (process_tweet_notification (fun _ _ => false) (fun _ _ => "d")
        DBState.empty 7 (some "lnk") (some "txt") none).2.1
        (resolveTweetId (fun _ _ => "d") "lnk" "txt" none) = true
    ∧ ∃ dc mu ug, (process_tweet_notification (fun _ _ => false) (fun _ _ => "d")
        DBState.empty 7 (some "lnk") (some "txt") none).1
        = TweetResponse.processed dc mu ug := by
  have h := C6_recorded_unconditionally (fun _ _ => false) (fun _ _ => "d")
    DBState.empty 7 (some "lnk") (some "txt") none
    (by decide) (by decide) (by decide)
  simpa using h

/-- C7: a reconciliation cycle that finds incomplete groups but no
unassigned subscriber aborts entirely: the store is unchanged (zero
group completions, zero bindings, no events) and every incomplete group
is still incomplete afterwards. -/
theorem C7_cycle_aborts_without_user
    (invGen : String → Option String) (sendInv : String → Bool) (now : Nat) (s : DBState)
    (hinc : get_incomplete_groups s ≠ [])
    (hnouser : get_user_without_group s = none) :
    process_groups invGen sendInv now s = (s, [])
    ∧ get_incomplete_groups (process_groups invGen sendInv now s).1
      = get_incomplete_groups s := by
  obtain ⟨g, gs, hgs⟩ : ∃ g gs, get_incomplete_groups s = g :: gs := by
    cases h : get_incomplete_groups s with
    | nil => exact absurd h hinc
    | cons a l => exact ⟨a, l, rfl⟩
  have hg : (pyBlank g.group_name || pyBlank g.invite_link) = true := by
    have hmem : g ∈ get_incomplete_groups s := by
      rw [hgs]; exact List.mem_cons_self g gs
    exact (List.mem_filter.mp hmem).2
  have hskip : (!(pyBlank g.group_name) && !(pyBlank g.invite_link)) = false := by
    cases h1 : pyBlank g.group_name <;> cases h2 : pyBlank g.invite_link <;>
      simp_all
  have hmain : process_groups invGen sendInv now s = (s, []) := by
    simp only [process_groups]
    rw [hgs]
    simp only [List.isEmpty_cons, Bool.false_eq_true, if_false]
    unfold processGroupsLoop
    simp [hskip, hnouser]
  exact ⟨hmain, by rw [hmain]⟩

/-- Witness for C7: two incomplete groups, zero unassigned subscribers. -/
theorem C7_cycle_aborts_without_user_witness :
    process_groups (fun _ => none) (fun _ => false) 5
        ⟨[], [], [⟨1, "g1", none, none, 0, 0⟩, ⟨2, "g2", none, none, 1, 1⟩], [], 1, 1, 3, 1⟩
      = (⟨[], [], [⟨1, "g1", none, none, 0, 0⟩, ⟨2, "g2", none, none, 1, 1⟩], [], 1, 1, 3, 1⟩, [])
    ∧ get_incomplete_groups
        (process_groups (fun _ => none) (fun _ => false) 5
          ⟨[], [], [⟨1, "g1", none, none, 0, 0⟩, ⟨2, "g2", none, none, 1, 1⟩], [], 1, 1, 3, 1⟩).1
      = get_incomplete_groups
          ⟨[], [], [⟨1, "g1", none, none, 0, 0⟩, ⟨2, "g2", none, none, 1, 1⟩], [], 1, 1, 3, 1⟩ :=
  C7_cycle_aborts_without_user (fun _ => none) (fun _ => false) 5
    ⟨[], [], [⟨1, "g1", none, none, 0, 0⟩, ⟨2, "g2", none, none, 1, 1⟩], [], 1, 1, 3, 1⟩
    (by decide) (by decide)

/-- C5: `find_users_by_keywords` returns exactly the subscribers that
hold at least one stored keyword occurring as a substring of the
lowercased post text and have a non-empty group binding; in particular
the result is empty when no stored keyword occurs in the text. -/
theorem C5_matcher_characterization (s : DBState) (T : String) (u : UserRow) :
    u ∈ find_users_by_keywords s T
      ↔ u ∈ s.users ∧ pyBlank u.group_id = false
          ∧ ∃ k ∈ s.keywords, k.user_id = u.id
              ∧ strContains (pyLower T) k.keyword = true := by
  have hfind : find_users_by_keywords s T
      = if (((s.keywords.map (fun k => k.keyword)).dedup).filter
            (fun kw => strContains (pyLower T) kw)).isEmpty then
          ([] : List UserRow)
        else
          s.users.filter (fun u =>
            (s.keywords.any (fun k => k.user_id = u.id
              && (((s.keywords.map (fun k => k.keyword)).dedup).filter
                    (fun kw => strContains (pyLower T) kw)).any (fun m => m = k.keyword)))
              && !(pyBlank u.group_id)) := rfl
  constructor
  · intro hu
    rw [hfind] at hu
    by_cases hm : (((s.keywords.map (fun k => k.keyword)).dedup).filter
        (fun kw => strContains (pyLower T) kw)).isEmpty
    · rw [if_pos hm] at hu
      simp at hu
    · rw [if_neg hm] at hu
      obtain ⟨hus, hcond⟩ := List.mem_filter.mp hu
      rw [Bool.and_eq_true] at hcond
      obtain ⟨hany, hgrp⟩ := hcond
      obtain ⟨k, hk, hkc⟩ := List.any_eq_true.mp hany
      rw [Bool.and_eq_true] at hkc
      obtain ⟨hkid, hkm⟩ := hkc
      obtain ⟨m, hmmem, hme⟩ := List.any_eq_true.mp hkm
      have hmk : m = k.keyword := by simpa using hme
      subst hmk
      have hsub : strContains (pyLower T) k.keyword = true :=
        (List.mem_filter.mp hmmem).2
      refine ⟨hus, ?_, k, hk, by simpa using hkid, hsub⟩
      simpa using hgrp
  · rintro ⟨hus, hgrp, k, hk, hkid, hsub⟩
    have hkM : k.keyword ∈ ((s.keywords.map (fun k => k.keyword)).dedup).filter
        (fun kw => strContains (pyLower T) kw) :=
      List.mem_filter.mpr
        ⟨List.mem_dedup.mpr (List.mem_map.mpr ⟨k, hk, rfl⟩), hsub⟩
    have hm : ¬ (((s.keywords.map (fun k => k.keyword)).dedup).filter
        (fun kw => strContains (pyLower T) kw)).isEmpty = true := by
      intro h
      rw [List.isEmpty_iff] at h
      rw [h] at hkM
      simp at hkM
    rw [hfind, if_neg hm]
    refine List.mem_filter.mpr ⟨hus, ?_⟩
    rw [Bool.and_eq_true]
    constructor
    · refine List.any_eq_true.mpr ⟨k, hk, ?_⟩
      rw [Bool.and_eq_true]
      exact ⟨by simpa using hkid, List.any_eq_true.mpr ⟨k.keyword, hkM, by simp⟩⟩
    · simpa using hgrp

lemma insertKeywordRows_none (uid now : Nat) :
    ∀ (ks : List String) (rows : List KeywordRow) (n : Nat),
      ((∃ r ∈ rows, r.user_id = uid ∧ r.keyword ∈ ks.map pyLower)
        ∨ ¬ (ks.map pyLower).Nodup) →
      insertKeywordRows uid now ks rows n = none
  | [], rows, n, h => by
    rcases h with ⟨r, -, -, hmem⟩ | hnd
    · simp at hmem
    · simp at hnd
  | k :: ks, rows, n, h => by
    unfold insertKeywordRows
    by_cases hc : rows.any (fun r => r.user_id = uid && r.keyword = pyLower k)
    · simp [hc]
    · simp only [hc, Bool.false_eq_true, if_false]
      apply insertKeywordRows_none uid now ks _ (n + 1)
      have hcnot : ∀ r ∈ rows, ¬ (r.user_id = uid ∧ r.keyword = pyLower k) := by
        intro r hr hand
        exact hc (List.any_eq_true.mpr ⟨r, hr, by simp [hand.1, hand.2]⟩)
      rcases h with ⟨r, hr, huid, hmem⟩ | hnd
      · rw [List.map_cons] at hmem
        rcases List.mem_cons.mp hmem with he | hmem2
        · exact absurd ⟨huid, he⟩ (hcnot r hr)
        · exact Or.inl ⟨r, List.mem_append_left _ hr, huid, hmem2⟩
      · rw [List.map_cons, List.nodup_cons] at hnd
        push_neg at hnd
        by_cases hin : pyLower k ∈ ks.map pyLower
        · exact Or.inl ⟨⟨n, uid, pyLower k, now⟩,
            List.mem_append_right _ (List.mem_singleton.mpr rfl), rfl, hin⟩
        · exact Or.inr (hnd hin)

/-- C3 counterexample: registering a fresh subscriber with the keyword
text "ai, AI" — two tokens with the same normalized form — does not
succeed with a deduplicated keyword: `add_user` returns `None` and
inserts nothing, contradicting the claim that the call succeeds. -/
theorem C3_counterexample_duplicate_keyword :
    (add_user DBState.empty 0 "c1" "Nina" "n@e" "news" "ai, AI").1 = none
    ∧ (add_user DBState.empty 0 "c1" "Nina" "n@e" "news" "ai, AI").2 = DBState.empty := by
  constructor <;> rfl

/-- C3 amended: when the keyword text of an `add_user` call for a fresh
address yields the same normalized (trimmed, lowercased) keyword more
than once, the second keyword INSERT violates `UNIQUE(user_id, keyword)`;
the raised `IntegrityError` makes the whole operation fail: `None` is
returned and the store is left unchanged (no subscriber, no keyword
rows). -/
theorem C3_amended_duplicate_keyword_fails
    (s : DBState) (now : Nat) (chat_id name email goal kw : String)
    (hfresh : s.users.any (fun u => u.chat_id = chat_id) = false)
    (hdup : ¬ ((splitKeywords kw).map pyLower).Nodup) :
    add_user s now chat_id name email goal kw = (none, s) := by
  have hnone := insertKeywordRows_none s.nextUserId now (splitKeywords kw)
    s.keywords s.nextKeywordId (Or.inr hdup)
  simp only [add_user, hfresh, Bool.false_eq_true, if_false]
  rw [hnone]

/-- Witness for C3's amended claim at the counterexample input. -/
theorem C3_amended_duplicate_keyword_fails_witness :
    add_user DBState.empty 0 "c1" "Nina" "n@e" "news" "ai, AI" = (none, DBState.empty) :=
  C3_amended_duplicate_keyword_fails DBState.empty 0 "c1" "Nina" "n@e" "news" "ai, AI"
    (by decide) (by decide)

/-- C4: evaluation at the failing input.  A store holds subscriber
"u1" (row id 1) with keyword "ai"; `remove_user "u1"` returns `True`
and deletes the user row, but the keyword row still references the
deleted user id — the declared cascade never runs because the sqlite3
connection leaves `PRAGMA foreign_keys` off. -/
theorem C4_remove_user_leaves_orphan_keywords :
    (remove_user (add_user DBState.empty 0 "u1" "Ana" "a@b" "x" "ai").2 "u1").1 = true
    ∧ (remove_user (add_user DBState.empty 0 "u1" "Ana" "a@b" "x" "ai").2 "u1").2.users = []
    ∧ ((remove_user (add_user DBState.empty 0 "u1" "Ana" "a@b" "x" "ai").2
          "u1").2.keywords.filter (fun k => k.user_id = 1)).length = 1 := by
  refine ⟨rfl, rfl, rfl⟩

/-- C10: `add_user` with a fresh address and a keyword text with no
non-empty comma-separated token succeeds: it returns the new subscriber
id, appends exactly the subscriber row, and stores no keyword for it. -/
theorem C10_empty_keyword_text_ok
    (s : DBState) (now : Nat) (chat_id name email goal kw : String)
    (hfresh : s.users.any (fun u => u.chat_id = chat_id) = false)
    (hempty : splitKeywords kw = [])
    (hids : ∀ r ∈ s.keywords, r.user_id ≠ s.nextUserId) :
    add_user s now chat_id name email goal kw
      = (some s.nextUserId,
          { s with
            users := s.users ++ [⟨s.nextUserId, chat_id, name, email, goal, now, now,
              none, none, none⟩]
            nextUserId := s.nextUserId + 1 })
    ∧ userKeywords (add_user s now chat_id name email goal kw).2 s.nextUserId = [] := by
  have hmain : add_user s now chat_id name email goal kw
      = (some s.nextUserId,
          { s with
            users := s.users ++ [⟨s.nextUserId, chat_id, name, email, goal, now, now,
              none, none, none⟩]
            nextUserId := s.nextUserId + 1 }) := by
    simp only [add_user, hfresh, Bool.false_eq_true, if_false, hempty, insertKeywordRows]
  refine ⟨hmain, ?_⟩
  rw [hmain]
  unfold userKeywords
  have hnil : s.keywords.filter (fun k => k.user_id = s.nextUserId) = [] := by
    rw [List.filter_eq_nil_iff]
    intro a ha
    simpa using hids a ha
  simp [hnil]

/-- Witness for C10: a fresh subscriber whose keyword text is only
commas and whitespace. -/
theorem C10_empty_keyword_text_ok_witness :
    add_user DBState.empty 9 "c9" "Bia" "b@e" "hi" " , ,, "
      = (some 1,
          { DBState.empty with
            users := [⟨1, "c9", "Bia", "b@e", "hi", 9, 9, none, none, none⟩]
            nextUserId := 2 })
    ∧ userKeywords (add_user DBState.empty 9 "c9" "Bia" "b@e" "hi" " , ,, ").2 1 = [] := by
  have h := C10_empty_keyword_text_ok DBState.empty 9 "c9" "Bia" "b@e" "hi" " , ,, "
    (by decide) (by decide) (by intro r hr; simp [DBState.empty] at hr)
  simpa [DBState.empty] using h

/-- Witness for C9 at a concrete successful call. -/
theorem C9_delivery_count_eq_unique_groups_witness :
    (0 : Nat) = 0
    ∧ (0 : Nat) = (([] : List (String × Bool)).filter (fun a => a.2)).length :=
  C9_delivery_count_eq_unique_groups (fun _ _ => true) (fun _ _ => "d")
    DBState.empty 7 (some "l") (some "t") none 0 0 0
    (add_tweet DBState.empty 7 "d" "t" "l").2 [] (by decide)
